import Mathlib

/-!
Verification of the `replit_code_exec` client adapter
(src/src/replit_code_exec/__init__.py).

The module has two functions: `code_exec`, which assembles a JSON payload and
an authenticated HTTP POST and returns the response body text, and
`build_code_exec`, which wraps `code_exec` behind a one-argument callable that
first strips enclosing triple-backtick code fences from its `code` argument.

The embedding models Python string primitives (`str.strip`, `str.split`,
`str.join`, `str.startswith`, `str.endswith`) on `List Char`, the request
payload as an insertion-ordered association list (Python dicts preserve
insertion order and `json.dumps` serializes in that order), and the HTTP
transport (`requests.post`) as an explicit function parameter from requests
to responses.
-/

/-- Models Python's whitespace test used by `str.strip()` with no arguments,
over the ASCII range (Python additionally strips non-ASCII Unicode whitespace;
no input in this development contains any). -/
def isPySpace (c : Char) : Bool :=
  c = ' ' || c = '\t' || c = '\n' || c = '\r' || c = '\x0b' || c = '\x0c'

/-- Models Python `str.strip()` on the character list: drop leading and
trailing whitespace characters. -/
def pyStripList (l : List Char) : List Char :=
  ((l.dropWhile isPySpace).reverse.dropWhile isPySpace).reverse

/-- Models Python `str.strip()`. -/
def pyStrip (s : String) : String :=
  String.mk (pyStripList s.toList)

/-- Models Python `str.startswith(pre)`. -/
def pyStartswith (s pre : String) : Bool :=
  pre.toList.isPrefixOf s.toList

/-- Models Python `str.endswith(suf)`. -/
def pyEndswith (s suf : String) : Bool :=
  suf.toList.isSuffixOf s.toList

/-- Models Python `str.split("\n")`: split at every newline character,
keeping empty pieces (`split` with an explicit separator never drops
empty strings). -/
def splitOnNl : List Char → List (List Char)
  | [] => [[]]
  | c :: cs =>
    match splitOnNl cs with
    | [] => [[c]]
    | l :: ls => if c = '\n' then [] :: l :: ls else (c :: l) :: ls

/-- Models Python `"\n".join(lines)`. -/
def joinNl : List (List Char) → List Char
  | [] => []
  | [l] => l
  | l :: ls => l ++ '\n' :: joinNl ls

/-- Embeds the normalization performed by `_code_exec`
(src/src/replit_code_exec/__init__.py lines 158-161):
`code = code.strip()`, then if the stripped code both starts and ends with
the `` ``` `` fence marker, `code = "\n".join(code.split("\n")[1:-1])` —
Python's `[1:-1]` slice drops the first and the last element, here rendered
as `(·.drop 1).dropLast`. -/
def normalizeCode (code : String) : String :=
  let code := pyStrip code
  if pyStartswith code "```" && pyEndswith code "```" then
    String.mk (joinNl (((splitOnNl code.toList).drop 1).dropLast))
  else code

/-- JSON values that the payload of `code_exec` can hold: the `code` string,
the `true` flags, and the `files` string-to-string mapping. -/
inductive JVal where
  | jstr : String → JVal
  | jbool : Bool → JVal
  | jobj : List (String × String) → JVal
deriving DecidableEq

/-- An outbound HTTP request as `requests.post(url, json=data, headers=...)`
receives it: target URL, headers, and the JSON payload `data` as an
insertion-ordered key-value list. -/
structure HttpRequest where
  url : String
  headers : List (String × String)
  body : List (String × JVal)
deriving DecidableEq

/-- An HTTP response: status code and body text. `code_exec` only ever reads
`text`. -/
structure HttpResponse where
  status : Nat
  text : String
deriving DecidableEq

/-- Embeds the request assembled by `code_exec`
(src/src/replit_code_exec/__init__.py lines 57-70): the `data` dict starts
as `{"code": code}`; `files` is added when `files is not None` (note: an
empty mapping is not `None`, so it is added too); `strace` and
`interpreter_mode` are added with value `True` exactly when the
corresponding flag is true; the headers and URL are those passed to
`requests.post`. -/
def code_exec_request (url bearer_token code : String)
    (files : Option (List (String × String)))
    (strace interpreter_mode : Bool) : HttpRequest :=
  let data : List (String × JVal) := [("code", JVal.jstr code)]
  let data : List (String × JVal) :=
    match files with
    | some fs => data ++ [("files", JVal.jobj fs)]
    | none => data
  let data : List (String × JVal) :=
    if strace then data ++ [("strace", JVal.jbool true)] else data
  let data : List (String × JVal) :=
    if interpreter_mode then data ++ [("interpreter_mode", JVal.jbool true)]
    else data
  { url := url
    headers := [("Content-Type", "application/json"),
                ("Authorization", "Bearer " ++ bearer_token)]
    body := data }

/-- Embeds `code_exec` (src/src/replit_code_exec/__init__.py lines 10-71):
issue the assembled request through the transport (`requests.post`) and
return the `.text` of whatever response comes back. The transport is a
parameter because the network is outside the program. -/
def code_exec (transport : HttpRequest → HttpResponse)
    (url bearer_token code : String)
    (files : Option (List (String × String)))
    (strace interpreter_mode : Bool) : String :=
  (transport (code_exec_request url bearer_token code files strace
      interpreter_mode)).text

/-- Embeds `build_code_exec` (src/src/replit_code_exec/__init__.py lines
74-166): returns the closure `_code_exec`, bound to the supplied
configuration, which normalizes its `code` argument (lines 158-161) and
delegates to `code_exec` (line 162). The `instructor.openai_function`
decoration only attaches schema metadata; the callable behaviour is the
inner function. -/
def build_code_exec (transport : HttpRequest → HttpResponse)
    (url bearer_token : String)
    (files : Option (List (String × String)))
    (strace interpreter_mode : Bool) : String → String :=
  fun code =>
    code_exec transport url bearer_token (normalizeCode code) files strace
      interpreter_mode

/-- Looks a key up in the insertion-ordered payload (first match, as in a
Python dict where keys are unique). -/
def findKey (k : String) : List (String × JVal) → Option JVal
  | [] => none
  | kv :: kvs => if kv.1 = k then some kv.2 else findKey k kvs

/-- Models Python `sep.join(parts)`. -/
def joinSep (sep : String) : List String → String
  | [] => ""
  | [x] => x
  | x :: xs => x ++ sep ++ joinSep sep xs

/-- Lower-case hexadecimal digit, as `json.dumps` emits in escapes. -/
def hexDigit (n : Nat) : Char :=
  if n < 10 then Char.ofNat (48 + n) else Char.ofNat (87 + n)

/-- Four-digit hexadecimal rendering used in `\uXXXX` escapes. -/
def hex4 (n : Nat) : String :=
  String.mk [hexDigit (n / 4096 % 16), hexDigit (n / 256 % 16),
             hexDigit (n / 16 % 16), hexDigit (n % 16)]

/-- Models the string escaping of Python `json.dumps` with its default
`ensure_ascii=True`, for characters in the basic multilingual plane: the
two-character escapes for quote, backslash and control characters that have
them, `\uXXXX` for other control and non-ASCII characters, and the
character itself otherwise. -/
def jsonEscapeChar (c : Char) : String :=
  if c = '"' then "\\\""
  else if c = '\\' then "\\\\"
  else if c = '\n' then "\\n"
  else if c = '\t' then "\\t"
  else if c = '\r' then "\\r"
  else if c = '\x08' then "\\b"
  else if c = '\x0c' then "\\f"
  else if c.toNat < 32 || c.toNat > 126 then "\\u" ++ hex4 c.toNat
  else String.mk [c]

/-- A JSON string literal as `json.dumps` writes it. -/
def jsonString (s : String) : String :=
  "\"" ++ joinSep "" (s.toList.map jsonEscapeChar) ++ "\""

/-- Serialization of one payload value, following `json.dumps` with its
default separators `(", ", ": ")`. -/
def serializeJVal : JVal → String
  | JVal.jstr s => jsonString s
  | JVal.jbool b => if b then "true" else "false"
  | JVal.jobj kvs =>
    "\x7b" ++
      joinSep ", " (kvs.map (fun kv => jsonString kv.1 ++ ": " ++ jsonString kv.2)) ++
      "\x7d"

/-- Serialization of the whole payload in insertion order, as
`requests.post(url, json=data, ...)` serializes `data` with
`json.dumps`. -/
def serializeBody (kvs : List (String × JVal)) : String :=
  "\x7b" ++
    joinSep ", " (kvs.map (fun kv => jsonString kv.1 ++ ": " ++ serializeJVal kv.2)) ++
    "\x7d"

/-- Modelled from the spec: the mock transport of the spec's round-trip
property, which echoes the received JSON body (serialized as the wire
format) back as the response text. -/
def jsonEcho : HttpRequest → HttpResponse :=
  fun req => ⟨200, serializeBody req.body⟩

/-- Splitting on newlines never yields the empty list (Python `split` on a
separator returns at least one piece). -/
theorem splitOnNl_ne_nil (l : List Char) : splitOnNl l ≠ [] := by
  induction l with
  | nil => simp [splitOnNl]
  | cons c cs ih =>
    simp only [splitOnNl]
    cases h : splitOnNl cs with
    | nil => exact absurd h ih
    | cons l ls => dsimp; split <;> simp

/-- Splitting after a newline-free block prepends that block to the first
piece of the rest. -/
theorem splitOnNl_append (w rest : List Char) (hw : '\n' ∉ w) :
    splitOnNl (w ++ rest) =
      (w ++ (splitOnNl rest).headD []) :: (splitOnNl rest).tail := by
  induction w with
  | nil =>
    cases h : splitOnNl rest with
    | nil => exact absurd h (splitOnNl_ne_nil rest)
    | cons l ls => simp [h]
  | cons c cs ih =>
    have hc : c ≠ '\n' := by
      intro e
      exact hw (e ▸ List.mem_cons_self c cs)
    have hcs : '\n' ∉ cs := fun m => hw (List.mem_cons_of_mem _ m)
    simp only [List.cons_append, splitOnNl, List.append_eq]
    rw [ih hcs]
    simp [hc]

/-- A leading newline contributes an empty first piece. -/
theorem splitOnNl_newline (rest : List Char) :
    splitOnNl ('\n' :: rest) = [] :: splitOnNl rest := by
  cases h : splitOnNl rest with
  | nil => exact absurd h (splitOnNl_ne_nil rest)
  | cons l ls => simp [splitOnNl, h]

/-- A newline-free string is a single line. -/
theorem splitOnNl_single (l : List Char) (hl : '\n' ∉ l) :
    splitOnNl l = [l] := by
  have := splitOnNl_append l [] hl
  simpa [splitOnNl] using this

/-- Splitting inverts joining for a nonempty list of newline-free lines. -/
theorem splitOnNl_joinNl (ls : List (List Char)) (hne : ls ≠ [])
    (h : ∀ l ∈ ls, '\n' ∉ l) : splitOnNl (joinNl ls) = ls := by
  induction ls with
  | nil => simp at hne
  | cons l ls ih =>
    cases ls with
    | nil => exact splitOnNl_single l (h l (by simp))
    | cons l2 ls2 =>
      have hl : '\n' ∉ l := h l (by simp)
      have hrest : ∀ x ∈ l2 :: ls2, '\n' ∉ x := fun x hx => h x (by simp [hx])
      have ihr := ih (by simp) hrest
      show splitOnNl (l ++ '\n' :: joinNl (l2 :: ls2)) = l :: l2 :: ls2
      rw [splitOnNl_append l _ hl, splitOnNl_newline, ihr]
      simp

/-- C1: if the whitespace-trimmed input both starts and ends with the
triple-backtick marker, normalization returns the interior lines of the
trimmed string (all lines but the first and the last) rejoined with
newlines; in particular `"```python\nprint(1)\n```"` normalizes to
`"print(1)"`, and an input with no fence markers at either end is changed
only by whitespace trimming. -/
theorem fence_strip_interior :
    (∀ s : String, pyStartswith (pyStrip s) "```" = true →
        pyEndswith (pyStrip s) "```" = true →
        normalizeCode s =
          String.mk (joinNl (((splitOnNl (pyStrip s).toList).drop 1).dropLast))) ∧
    normalizeCode "```python\nprint(1)\n```" = "print(1)" ∧
    (∀ s : String, pyStartswith (pyStrip s) "```" = false →
        pyEndswith (pyStrip s) "```" = false →
        normalizeCode s = pyStrip s) := by
  refine ⟨?_, by decide, ?_⟩
  · intro s h1 h2
    simp [normalizeCode, h1, h2]
  · intro s h1 h2
    simp [normalizeCode, h1, h2]

/-- C1 witness: the fenced-input clause instantiated at a concrete input. -/
theorem fence_strip_interior_witness :
    normalizeCode "```x\nprint(2)\n```" =
      String.mk (joinNl (((splitOnNl (pyStrip "```x\nprint(2)\n```").toList).drop 1).dropLast)) :=
  fence_strip_interior.1 "```x\nprint(2)\n```" (by decide) (by decide)

/-- C4: if the whitespace-trimmed input carries a fence marker at one end
but not the other, normalization is exactly whitespace trimming — no fence
stripping occurs; in particular `"```\nprint(1)"` passes through
unchanged. -/
theorem asymmetric_fence_untouched :
    (∀ s : String,
        pyStartswith (pyStrip s) "```" ≠ pyEndswith (pyStrip s) "```" →
        normalizeCode s = pyStrip s) ∧
    normalizeCode "```\nprint(1)" = "```\nprint(1)" := by
  refine ⟨?_, by decide⟩
  intro s hne
  cases h1 : pyStartswith (pyStrip s) "```" <;>
    cases h2 : pyEndswith (pyStrip s) "```" <;>
      simp [h1, h2] at hne ⊢ <;> simp [normalizeCode, h1, h2]

/-- C4 witness: the asymmetric-fence clause instantiated at a concrete
input. -/
theorem asymmetric_fence_untouched_witness :
    normalizeCode "```\nprint(9)" = pyStrip "```\nprint(9)" :=
  asymmetric_fence_untouched.1 "```\nprint(9)" (by decide)

/-- C7 counterexample: normalization is not idempotent. The input
`"```\n x\n```"` normalizes to `" x"`, whose leading space a second pass
trims away, so applying normalization twice differs from applying it
once. -/
theorem normalize_not_idempotent :
    normalizeCode (normalizeCode "```\n x\n```") ≠
      normalizeCode "```\n x\n```" := by
  decide

/-- C7 amended: normalization is idempotent on every input whose one-pass
result is already whitespace-trimmed and does not itself both start and end
with the fence marker; a second pass can otherwise trim further whitespace
or strip a further fence pair. -/
theorem normalize_idempotent_on_normal_forms (s : String)
    (h1 : pyStrip (normalizeCode s) = normalizeCode s)
    (h2 : ¬(pyStartswith (normalizeCode s) "```" = true ∧
            pyEndswith (normalizeCode s) "```" = true)) :
    normalizeCode (normalizeCode s) = normalizeCode s := by
  have key : ∀ t : String, pyStrip t = t →
      ¬(pyStartswith t "```" = true ∧ pyEndswith t "```" = true) →
      normalizeCode t = t := by
    intro t ht1 ht2
    simp only [normalizeCode, ht1]
    rw [if_neg]
    simpa [Bool.and_eq_true] using ht2
  exact key (normalizeCode s) h1 h2

/-- C7 witness: the amended idempotence instantiated at the spec's fenced
example. -/
theorem normalize_idempotent_witness :
    normalizeCode (normalizeCode "```python\nprint(1)\n```") =
      normalizeCode "```python\nprint(1)\n```" :=
  normalize_idempotent_on_normal_forms "```python\nprint(1)\n```"
    (by decide) (by decide)

/-- C10: an input whose whitespace-trimmed form is a single line starting
and ending with the fence marker — including the bare `"```"`, where the
two matches overlap — normalizes to the empty string, and the adapter
still dispatches a request whose `code` field is the empty string (it is a
total function into the transport, so no local error is raised). -/
theorem single_line_fence_empty :
    (∀ s : String, '\n' ∉ (pyStrip s).toList →
        pyStartswith (pyStrip s) "```" = true →
        pyEndswith (pyStrip s) "```" = true →
        normalizeCode s = "") ∧
    normalizeCode "```" = "" ∧
    (∀ (transport : HttpRequest → HttpResponse) (url tok : String)
        (files : Option (List (String × String))) (strace imode : Bool),
        build_code_exec transport url tok files strace imode "```" =
          (transport (code_exec_request url tok "" files strace imode)).text) := by
  refine ⟨?_, by decide, ?_⟩
  · intro s hnl h1 h2
    have hs := splitOnNl_single _ hnl
    simp only [String.toList] at hs
    simp [normalizeCode, h1, h2, hs]
    rfl
  · intro transport url tok files strace imode
    have hn : normalizeCode "```" = "" := by decide
    simp [build_code_exec, code_exec, hn]

/-- C10 witness: the single-line clause instantiated at a fence line
carrying a language tag. -/
theorem single_line_fence_empty_witness :
    normalizeCode "```python```" = "" :=
  single_line_fence_empty.1 "```python```" (by decide) (by decide) (by decide)

/-- C5: when fence stripping triggers, exactly one whole line is removed
from each end of the trimmed string, regardless of where the fence marker
sits within that line: for any decomposition of the trimmed input into a
first line, interior lines and a last line, the result is exactly the
interior lines rejoined — the whole first line (language tag included) and
the whole last line (any content before the closing marker included) are
dropped. -/
theorem fence_strip_whole_lines (s : String)
    (firstLine lastLine : List Char) (mid : List (List Char))
    (hf : '\n' ∉ firstLine) (hl : '\n' ∉ lastLine)
    (hm : ∀ l ∈ mid, '\n' ∉ l)
    (hs : (pyStrip s).toList = joinNl (firstLine :: mid ++ [lastLine]))
    (h1 : pyStartswith (pyStrip s) "```" = true)
    (h2 : pyEndswith (pyStrip s) "```" = true) :
    normalizeCode s = String.mk (joinNl mid) := by
  have hall : ∀ l ∈ firstLine :: mid ++ [lastLine], '\n' ∉ l := by
    intro l hmem
    rcases List.mem_cons.mp hmem with h | h
    · exact h ▸ hf
    · rcases List.mem_append.mp h with h | h
      · exact hm l h
      · exact (List.mem_singleton.mp h) ▸ hl
  have hsplit : splitOnNl (pyStrip s).toList =
      firstLine :: mid ++ [lastLine] := by
    rw [hs]
    exact splitOnNl_joinNl _ (by simp) hall
  simp only [String.toList] at hsplit
  simp [normalizeCode, h1, h2, hsplit]

/-- C5 witness: a fence line with a language tag and a closing line with
content before the marker are both dropped wholesale. -/
theorem fence_strip_whole_lines_witness :
    normalizeCode "```python\nprint(1)\ntag```" =
      String.mk (joinNl ["print(1)".toList]) :=
  fence_strip_whole_lines "```python\nprint(1)\ntag```"
    "```python".toList "tag```".toList ["print(1)".toList]
    (by decide) (by decide) (by decide) (by decide) (by decide) (by decide)

/-- C2: the payload always carries `code` with the supplied string; it
carries `files` exactly when a mapping was supplied (empty included), with
the supplied value; it carries `strace` (value `true`) exactly when the
flag is true, and likewise `interpreter_mode`; absent optionals contribute
no key at all, so at all-default options the payload is exactly the
one-entry `code` dict. -/
theorem request_body_keys (url tok code : String)
    (files : Option (List (String × String))) (strace imode : Bool) :
    findKey "code" (code_exec_request url tok code files strace imode).body
        = some (JVal.jstr code) ∧
    findKey "files" (code_exec_request url tok code files strace imode).body
        = files.map JVal.jobj ∧
    findKey "strace" (code_exec_request url tok code files strace imode).body
        = (if strace then some (JVal.jbool true) else none) ∧
    findKey "interpreter_mode" (code_exec_request url tok code files strace imode).body
        = (if imode then some (JVal.jbool true) else none) ∧
    (files = none → strace = false → imode = false →
      (code_exec_request url tok code files strace imode).body
        = [("code", JVal.jstr code)]) := by
  cases files <;> cases strace <;> cases imode <;>
    simp [code_exec_request, findKey]

/-- C2 witness: with every optional at its default the body is exactly the
`code` entry. -/
theorem request_body_keys_witness :
    (code_exec_request "u" "t" "c" none false false).body
      = [("code", JVal.jstr "c")] :=
  (request_body_keys "u" "t" "c" none false false).2.2.2.2 rfl rfl rfl

/-- C3: whatever response the transport produces for the built request —
any status code, any body — `code_exec` returns the body text verbatim; it
never inspects the status. -/
theorem response_text_passthrough (url tok code : String)
    (files : Option (List (String × String))) (strace imode : Bool)
    (status : Nat) (body : String)
    (transport : HttpRequest → HttpResponse)
    (h : transport (code_exec_request url tok code files strace imode) =
      ⟨status, body⟩) :
    code_exec transport url tok code files strace imode = body := by
  simp [code_exec, h]

/-- C3 witness: a transport answering HTTP 500 with body `"Traceback..."`
still yields the return value `"Traceback..."`. -/
theorem response_text_passthrough_witness :
    code_exec (fun _ => ⟨500, "Traceback..."⟩) "u" "t" "c" none false false =
      "Traceback..." :=
  response_text_passthrough "u" "t" "c" none false false 500 "Traceback..."
    (fun _ => ⟨500, "Traceback..."⟩) rfl

/-- C6: for every bearer token, the outbound request carries exactly the
headers `Content-Type: application/json` and `Authorization` equal to the
plain concatenation `"Bearer " ++ bearer_token`, with no escaping or
re-encoding. -/
theorem request_headers_exact (url tok code : String)
    (files : Option (List (String × String))) (strace imode : Bool) :
    (code_exec_request url tok code files strace imode).headers =
      [("Content-Type", "application/json"),
       ("Authorization", "Bearer " ++ tok)] := rfl

/-- C8: the callable returned by `build_code_exec` equals `code_exec`
applied to the bound configuration and the normalized code, for every
transport; and with the echoing transport and code `"1+1"` at default
options it returns the JSON encoding of the one-entry `code` payload. -/
theorem adapter_refines_builder :
    (∀ (transport : HttpRequest → HttpResponse) (url tok : String)
        (files : Option (List (String × String))) (strace imode : Bool)
        (code : String),
        build_code_exec transport url tok files strace imode code =
          code_exec transport url tok (normalizeCode code) files strace imode) ∧
    build_code_exec jsonEcho "u" "t" none false false "1+1" =
      "\x7b\"code\": \"1+1\"\x7d" :=
  ⟨fun _ _ _ _ _ _ _ => rfl, by decide⟩
